import Mathlib

/-!
Verification development for the tool-invocation gateway and dice engine of
the ai-game-master-mcp repository.  The dice engine and the Lambda dispatcher
are translated from `src/server-http-python-lambda/server/app.py`; the tool
registry and the generic protocol handler live in the `lambda_mcp` library,
which is part of the repository but not present under `src/`, so those parts
are modelled from the specification.
-/

set_option maxHeartbeats 1000000

/-! ## Dice engine (translated from `dice_roll` in app.py, lines 140-179) -/

/-- Decimal value of a digit string, as Python `int()` computes it on a
string of ASCII digits. -/
def digitsVal (ds : List Char) : Nat :=
  ds.foldl (fun a c => 10 * a + (c.toNat - 48)) 0

/-- The optional modifier group of the regex `(\d+)d(\d+)([+-]\d+)?`, and the
conversion `int(match.group(3) or "+0")`: a sign followed by a maximal
nonempty digit run yields the signed value, anything else yields 0 (the
optional group matched nothing). -/
def parseMod (r : List Char) : Int :=
  match r with
  | c :: r4 =>
    if c = '+' then
      (if r4.takeWhile Char.isDigit = [] then 0
       else (digitsVal (r4.takeWhile Char.isDigit) : Int))
    else if c = '-' then
      (if r4.takeWhile Char.isDigit = [] then 0
       else -(digitsVal (r4.takeWhile Char.isDigit) : Int))
    else 0
  | [] => 0

/-- `re.match(r"(\d+)d(\d+)([+-]\d+)?", s)` followed by the `int()`
conversions of the three groups.  `re.match` anchors at the start only, so
trailing characters are ignored.  Each `\d+` is a maximal digit run: the
characters `d`, `+` and `-` that must follow the first two runs are not
digits, so greedy matching never backtracks into a shorter run.  (`\d` is
modelled over the ASCII digits; the claims only involve those.) -/
def diceMatch (cs : List Char) : Option (Nat × Nat × Int) :=
  if cs.takeWhile Char.isDigit = [] then none
  else
    match cs.dropWhile Char.isDigit with
    | c :: r2 =>
      if c = 'd' then
        (if r2.takeWhile Char.isDigit = [] then none
         else some (digitsVal (cs.takeWhile Char.isDigit),
                    digitsVal (r2.takeWhile Char.isDigit),
                    parseMod (r2.dropWhile Char.isDigit)))
      else none
    | [] => none

/-- Python `str(rolls)` for a list of ints, e.g. `[3, 4]`. -/
def pyListRepr (l : List Nat) : String :=
  "[" ++ String.intercalate ", " (l.map toString) ++ "]"

/-- The modifier segment of the formatted result: rendered with its sign and
a trailing space when nonzero, empty when zero (`if modifier != 0: ...`). -/
def modSeg (modifier : Int) : String :=
  if modifier ≠ 0 then (if 0 < modifier then "+" else "") ++ toString modifier ++ " " else ""

def invalidMsg (s : String) : String :=
  "[ERROR] Invalid dice notation: " ++ s ++ ". Use format like '2d6', '1d20+5', etc."

def countErrMsg : String := "[ERROR] Number of dice must be between 1 and 100."

def sidesErrMsg : String := "[ERROR] Number of sides must be between 2 and 1000."

/-- `dice_roll` from app.py.  `g i` stands for the value drawn by
`random.randint(1, sides)` at loop iteration `i`; theorems assume the
`randint` contract `1 ≤ g i ≤ sides`. -/
def dice_roll (g : Nat → Nat) ( dice_notation : String) : String :=
  match diceMatch dice_notation.data with
  | none => invalidMsg dice_notation
  | some (num_dice, sides, modifier) =>
    if num_dice < 1 ∨ num_dice > 100 then countErrMsg
    else if sides < 2 ∨ sides > 1000 then sidesErrMsg
    else
      let rolls := (List.range num_dice).map g
      let total : Int := (rolls.sum : Int) + modifier
      "Rolled " ++ dice_notation ++ ": " ++ pyListRepr rolls ++ " " ++
        modSeg modifier ++ "= " ++ toString total

/-! ## Helpers describing the claim's family of inputs -/

/-- The characters of an explicit modifier clause `<sign><m>`:
`some (true, dm)` is `-dm`, `some (false, dm)` is `+dm`, `none` is absent. -/
def modChars : Option (Bool × List Char) → List Char
  | none => []
  | some (sgn, dm) => (if sgn then '-' else '+') :: dm

/-- The integer value denoted by an optional modifier clause. -/
def modVal : Option (Bool × List Char) → Int
  | none => 0
  | some (sgn, dm) => if sgn then -(digitsVal dm : Int) else (digitsVal dm : Int)

/-- The notation string `<ds1>d<ds2><mod-clause><trailing>`. -/
def diceStr (ds1 ds2 : List Char) (mc : Option (Bool × List Char)) (t : List Char) : String :=
  String.mk (ds1 ++ 'd' :: (ds2 ++ (modChars mc ++ t)))

/-- `leadsWith n h` is true when `n` is an initial run of `h`. -/
def leadsWith : List Char → List Char → Bool
  | [], _ => true
  | _ :: _, [] => false
  | a :: as, b :: bs => if a = b then leadsWith as bs else false

/-- `occursIn n h` is true when `n` occurs contiguously inside `h`. -/
def occursIn (n : List Char) : List Char → Bool
  | [] => leadsWith n []
  | c :: cs => leadsWith n (c :: cs) || occursIn n cs

/-! ## Gateway data model

The request body is already JSON-decoded: `none` stands for an absent,
falsy or unparsable body (the `json.JSONDecodeError` path), any other value
for the decoded Python object. -/

inductive JValue where
  | null : JValue
  | bool (b : Bool) : JValue
  | num (n : Int) : JValue
  | str (s : String) : JValue
  | arr (elems : List JValue) : JValue
  | obj (fields : List (String × JValue)) : JValue

/-- `d.get(k)` on a JSON-decoded dict (unique keys). -/
def lookupField (k : String) : List (String × α) → Option α
  | [] => none
  | (k2, v) :: rest => if k2 = k then some v else lookupField k rest

/-- `d[k]` lookup on a JSON value when it is a dict. -/
def jGet (k : String) : JValue → Option JValue
  | JValue.obj fs => lookupField k fs
  | _ => none

mutual
/-- Python `repr` of a JSON-decoded value (used by `str` on lists/dicts). -/
def pyRepr : JValue → String
  | JValue.null => "None"
  | JValue.bool b => if b then "True" else "False"
  | JValue.num n => toString n
  | JValue.str s => "'" ++ s ++ "'"
  | JValue.arr xs => "[" ++ String.intercalate ", " (pyReprList xs) ++ "]"
  | JValue.obj fs => "\x7b" ++ String.intercalate ", " (pyReprFields fs) ++ "\x7d"

def pyReprList : List JValue → List String
  | [] => []
  | v :: vs => pyRepr v :: pyReprList vs

def pyReprFields : List (String × JValue) → List String
  | [] => []
  | (k, v) :: fs => ("'" ++ k ++ "': " ++ pyRepr v) :: pyReprFields fs
end

/-- Python `str` of a JSON-decoded value, as interpolated by an f-string. -/
def pyStr : JValue → String
  | JValue.str s => s
  | v => pyRepr v

/-- `str(body.get("name"))`: a missing key gives Python `None`. -/
def pyStrOpt : Option JValue → String
  | none => "None"
  | some v => pyStr v

/-- Python type name of a JSON-decoded value, as it appears in the
`TypeError` message `re.match` raises on a non-string argument. -/
def pyTypeName : JValue → String
  | JValue.null => "NoneType"
  | JValue.bool _ => "bool"
  | JValue.num _ => "int"
  | JValue.str _ => "str"
  | JValue.arr _ => "list"
  | JValue.obj _ => "dict"

/-- The response envelope: `statusCode`, `headers`, and the structured
payload handed to `json.dumps` (none when the `body` key is absent, as in
the ping response). -/
structure Response where
  statusCode : Nat
  headers : List (String × String)
  body : Option JValue

/-- Modelled from the spec: the state of the `LambdaMCPServer` instance from
the `lambda_mcp` library, which is part of the repository but not under
`src/`.  `tools` is `mcp_server.tools.values()` in registration order (tool
descriptors as JSON-shaped dicts with name, description, inputSchema);
`impls` is `mcp_server.tool_implementations`, each implementation taking its
keyword-argument dict and either returning a value or raising (`Except.error`
carries `str(e)`); `fallbackResp` is the envelope produced by
`mcp_server.handle_request`, the generic session-oriented protocol handler.
Per the spec the registry is built once at startup, names are unique, and it
holds a generic built-in placeholder entry named "diceRoll". -/
structure ServerState where
  tools : List JValue
  impls : List (String × (List (String × JValue) → Except String JValue))
  fallbackResp : Response

def ctJson : List (String × String) := [("Content-Type", "application/json")]

/-- `body.get("arguments", {})`; the claims only involve mapping-typed
`arguments`, so a non-dict value is modelled as the empty dict. -/
def argsOf (fields : List (String × JValue)) : List (String × JValue) :=
  match lookupField "arguments" fields with
  | some (JValue.obj kvs) => kvs
  | _ => []

/-- The fixed catalog entry substituted for the built-in `diceRoll` tool at
listing time (app.py lines 210-223). -/
def diceRollToolJson : JValue :=
  JValue.obj [
    ("name", JValue.str "diceRoll"),
    ("description", JValue.str "Roll dice using standard D&D notation."),
    ("inputSchema", JValue.obj [
      ("type", JValue.str "object"),
      ("properties", JValue.obj [
        ("dice_notation", JValue.obj [
          ("type", JValue.str "string"),
          ("description", JValue.str "Standard dice notation like '2d6', '1d20+5', '3d8-2', etc.")])]),
      ("required", JValue.arr [JValue.str "dice_notation"])])]

/-- The loop body of the listTools branch: every catalog entry whose
`name` is "diceRoll" is replaced in the listed copy. -/
def overrideDiceRoll (tool : JValue) : JValue :=
  match jGet "name" tool with
  | some (JValue.str nm) => if nm = "diceRoll" then diceRollToolJson else tool
  | _ => tool

/-- The registry path of the callTool branch (app.py lines 259-281):
missing name gives 404, a raising implementation gives 500. -/
def callToolGeneric (st : ServerState) (nameVal : Option JValue)
    (tool_args : List (String × JValue)) : Response :=
  match nameVal with
  | some (JValue.str nm) =>
    match lookupField nm st.impls with
    | none =>
      ⟨404, ctJson, some (JValue.obj [("error", JValue.str ("Tool '" ++ nm ++ "' not found"))])⟩
    | some f =>
      match f tool_args with
      | Except.ok r => ⟨200, ctJson, some (JValue.obj [("result", r)])⟩
      | Except.error e =>
        ⟨500, ctJson, some (JValue.obj [("error", JValue.str ("Error executing tool: " ++ e))])⟩
  | other =>
    ⟨404, ctJson, some (JValue.obj [("error", JValue.str ("Tool '" ++ pyStrOpt other ++ "' not found"))])⟩

/-- The callTool branch (app.py lines 236-281).  A non-string name never
equals "diceRoll", so it goes to the registry path.  On the diceRoll fast
path, a non-string `dice_notation` makes `re.match` raise `TypeError`, which
the surrounding `except` turns into the dice-roll-specific 500 body. -/
def callToolAction (st : ServerState) (g : Nat → Nat)
    (fields : List (String × JValue)) : Response :=
  let nameVal := lookupField "name" fields
  let tool_args := argsOf fields
  match nameVal with
  | some (JValue.str nm) =>
    if nm = "diceRoll" then
      match lookupField "dice_notation" tool_args with
      | some (JValue.str ds) =>
        ⟨200, ctJson, some (JValue.obj [("result", JValue.str (dice_roll g ds))])⟩
      | some v =>
        ⟨500, ctJson, some (JValue.obj [("error", JValue.str
          ("Error executing dice roll: expected string or bytes-like object, got '"
            ++ pyTypeName v ++ "'"))])⟩
      | none => callToolGeneric st (some (JValue.str nm)) tool_args
    else callToolGeneric st (some (JValue.str nm)) tool_args
  | other => callToolGeneric st other tool_args

/-- `lambda_handler` from app.py (lines 181-286), with the server state
threaded explicitly: the second component of the result is the registry
state after the request (no branch writes to it; the listTools branch
builds a fresh overridden copy for the response only). -/
def lambda_handler (st : ServerState) (g : Nat → Nat) (body : Option JValue) :
    Response × ServerState :=
  match body with
  | some (JValue.obj fields) =>
    match lookupField "action" fields with
    | some (JValue.str a) =>
      if a = "ping" then
        (⟨204, [("MCP-Version", "0.6")], none⟩, st)
      else if a = "listTools" then
        (⟨200, [("Content-Type", "application/json"), ("MCP-Version", "0.6")],
          some (JValue.obj [("tools", JValue.arr (st.tools.map overrideDiceRoll))])⟩, st)
      else if a = "callTool" then
        (callToolAction st g fields, st)
      else (st.fallbackResp, st)
    | some _ => (st.fallbackResp, st)
    | none => (st.fallbackResp, st)
  | _ => (st.fallbackResp, st)

/-- A concrete sample of the spec-modelled server state, used by the
witnesses: the built-in diceRoll placeholder descriptor, its
implementation, one ordinary tool, and one tool whose implementation
always raises. -/
def placeholderDiceJson : JValue :=
  JValue.obj [
    ("name", JValue.str "diceRoll"),
    ("description", JValue.str "Generic built-in dice tool"),
    ("inputSchema", JValue.obj [
      ("type", JValue.str "object"),
      ("properties", JValue.obj [
        ("dice_type", JValue.obj [("type", JValue.str "string")]),
        ("num_dice", JValue.obj [("type", JValue.str "integer")])])])]

def sampleState : ServerState where
  tools := [placeholderDiceJson]
  impls :=
    [("diceRoll", fun _ => Except.error "dice_roll() missing required arguments"),
     ("get_time", fun _ => Except.ok (JValue.str "2026-10-12T00:00:00Z")),
     ("boom", fun _ => Except.error "kaboom")]
  fallbackResp := ⟨200, [], none⟩

example : diceMatch "2d6".data = some (2, 6, 0) := by decide
example : diceMatch "1d20+5".data = some (1, 20, 5) := by decide
example : diceMatch "3d8-2".data = some (3, 8, -2) := by decide
example : diceMatch "2d6 and more".data = some (2, 6, 0) := by decide
example : diceMatch "2d6+".data = some (2, 6, 0) := by decide
example : diceMatch "abc".data = none := by decide
example : diceMatch "d6".data = none := by decide
example : diceMatch "2d".data = none := by decide
example : dice_roll (fun _ => 3) "2d6" = "Rolled 2d6: [3, 3] = 6" := by decide
example : dice_roll (fun _ => 4) "3d8-2" = "Rolled 3d8-2: [4, 4, 4] -2 = 10" := by decide
example : dice_roll (fun _ => 7) "1d20+5" = "Rolled 1d20+5: [7] +5 = 12" := by decide
example : dice_roll (fun _ => 1) "0d6" = countErrMsg := by decide
example : dice_roll (fun _ => 1) "1d1001" = sidesErrMsg := by decide

/-! ## Parsing lemmas -/

lemma takeWhile_digits_append (ds rest : List Char)
    (hds : ∀ c ∈ ds, c.isDigit = true)
    (hrest : ∀ c cs, rest = c :: cs → c.isDigit = false) :
    (ds ++ rest).takeWhile Char.isDigit = ds ∧
    (ds ++ rest).dropWhile Char.isDigit = rest := by
  induction ds with
  | nil =>
    simp only [List.nil_append]
    cases rest with
    | nil => simp
    | cons c cs =>
      simp [List.takeWhile_cons, List.dropWhile_cons, hrest c cs rfl]
  | cons a as ih =>
    have ha : a.isDigit = true := hds a (by simp)
    have ih2 := ih (fun c hc => hds c (by simp [hc]))
    simp [List.takeWhile_cons, List.dropWhile_cons, ha, ih2.1, ih2.2]

lemma takeWhile_digits_all (ds : List Char) (hds : ∀ c ∈ ds, c.isDigit = true) :
    ds.takeWhile Char.isDigit = ds := by
  have h := takeWhile_digits_append ds [] hds (fun c cs h => by simp at h)
  simpa using h.1

/-- The regex match on the class of strings the claims quantify over:
digit run, `d`, digit run, optional sign-and-digit-run modifier clause, and
trailing characters that cannot extend the match. -/
lemma diceMatch_eq (ds1 ds2 : List Char) (mc : Option (Bool × List Char)) (t : List Char)
    (h1 : ds1 ≠ []) (hd1 : ∀ c ∈ ds1, c.isDigit = true)
    (h2 : ds2 ≠ []) (hd2 : ∀ c ∈ ds2, c.isDigit = true)
    (hmc : ∀ sgn dm, mc = some (sgn, dm) → dm ≠ [] ∧ ∀ c ∈ dm, c.isDigit = true)
    (ht : ∀ c cs, t = c :: cs → c.isDigit = false ∧
      (mc = none → (c = '+' ∨ c = '-') → ∀ d ds, cs = d :: ds → d.isDigit = false)) :
    diceMatch (ds1 ++ 'd' :: (ds2 ++ (modChars mc ++ t))) =
      some (digitsVal ds1, digitsVal ds2, modVal mc) := by
  have hdnot : ∀ c cs, ('d' :: (ds2 ++ (modChars mc ++ t))) = c :: cs → c.isDigit = false := by
    intro c cs h
    injection h with hc _
    subst hc
    decide
  have hspan1 := takeWhile_digits_append ds1 ('d' :: (ds2 ++ (modChars mc ++ t))) hd1 hdnot
  have hhead2 : ∀ c cs, (modChars mc ++ t) = c :: cs → c.isDigit = false := by
    intro c cs h
    cases mc with
    | none =>
      simp only [modChars, List.nil_append] at h
      exact (ht c cs h).1
    | some p =>
      obtain ⟨sgn, dm⟩ := p
      simp only [modChars, List.cons_append] at h
      injection h with hc _
      subst hc
      cases sgn <;> decide
  have hspan2 := takeWhile_digits_append ds2 (modChars mc ++ t) hd2 hhead2
  have hmod : parseMod (modChars mc ++ t) = modVal mc := by
    cases mc with
    | none =>
      simp only [modChars, List.nil_append, modVal]
      cases t with
      | nil => rfl
      | cons c cs =>
        obtain ⟨hcd, hsign⟩ := ht c cs rfl
        by_cases hplus : c = '+'
        · subst hplus
          have hcs : cs.takeWhile Char.isDigit = [] := by
            cases cs with
            | nil => rfl
            | cons d ds =>
              simp [List.takeWhile_cons, hsign rfl (Or.inl rfl) d ds rfl]
          simp [parseMod, hcs]
        · by_cases hminus : c = '-'
          · subst hminus
            have hcs : cs.takeWhile Char.isDigit = [] := by
              cases cs with
              | nil => rfl
              | cons d ds =>
                simp [List.takeWhile_cons, hsign rfl (Or.inr rfl) d ds rfl]
            simp [parseMod, hcs]
          · simp [parseMod, hplus, hminus]
    | some p =>
      obtain ⟨sgn, dm⟩ := p
      obtain ⟨hdm, hdmd⟩ := hmc sgn dm rfl
      have hdm2 : (dm ++ t).takeWhile Char.isDigit = dm :=
        (takeWhile_digits_append dm t hdmd (fun c cs h => (ht c cs h).1)).1
      cases sgn <;> simp [modChars, parseMod, modVal, hdm2, hdm]
  simp only [diceMatch, hspan1.1, hspan1.2, hspan2.1, hspan2.2, hmod, if_neg h1]
  simp [h2]

/-! ## String facts -/

lemma strData_append (a b : String) : (a ++ b).data = a.data ++ b.data := rfl

lemma str_append_empty (s : String) : s ++ "" = s := by
  cases s
  simp [String.append]

lemma str_append_assoc (a b c : String) : a ++ b ++ c = a ++ (b ++ c) := by
  cases a with
  | mk la =>
    cases b with
    | mk lb =>
      cases c with
      | mk lc => exact congrArg String.mk (List.append_assoc la lb lc)

lemma leadsWith_self_append (n r : List Char) : leadsWith n (n ++ r) = true := by
  induction n with
  | nil => rfl
  | cons a as ih => simp [leadsWith, ih]

lemma occursIn_leads (n h : List Char) (hl : leadsWith n h = true) : occursIn n h = true := by
  cases h with
  | nil => simpa [occursIn] using hl
  | cons c cs => simp [occursIn, hl]

lemma occursIn_of_append (p n r : List Char) : occursIn n (p ++ (n ++ r)) = true := by
  induction p with
  | nil => exact occursIn_leads n (n ++ r) (leadsWith_self_append n r)
  | cons a as ih =>
    simp [occursIn, ih]

lemma string_ne_of_leads (a b : String) (p : List Char)
    (ha : leadsWith p a.data = true) (hb : leadsWith p b.data = false) : a ≠ b := by
  intro h
  rw [h, hb] at ha
  exact Bool.false_ne_true ha

/-! ## Dice-roll evaluation helpers -/

/-- The success path of `dice_roll`: a parse within bounds yields the
formatted breakdown built from the drawn rolls, the modifier segment and
the total. -/
lemma dice_roll_success (s : String) (n sd : Nat) (m : Int) (g : Nat → Nat)
    (hmatch : diceMatch s.data = some (n, sd, m))
    (hn1 : 1 ≤ n) (hn2 : n ≤ 100) (hs1 : 2 ≤ sd) (hs2 : sd ≤ 1000) :
    dice_roll g s =
      "Rolled " ++ s ++ ": " ++ pyListRepr ((List.range n).map g) ++ " " ++
        modSeg m ++ "= " ++ toString ((((List.range n).map g).sum : Int) + m) := by
  unfold dice_roll
  simp only [hmatch]
  rw [if_neg (by omega), if_neg (by omega)]

lemma rolls_length (g : Nat → Nat) (n : Nat) : ((List.range n).map g).length = n := by
  simp

lemma rolls_bounds (g : Nat → Nat) (n sd : Nat)
    (hg : ∀ i, i < n → 1 ≤ g i ∧ g i ≤ sd) :
    ∀ r ∈ (List.range n).map g, 1 ≤ r ∧ r ≤ sd := by
  intro r hr
  obtain ⟨i, hi, rfl⟩ := List.mem_map.mp hr
  exact hg i (List.mem_range.mp hi)

lemma str_space_empty_eq (x : String) : x ++ " " ++ "" ++ "= " = x ++ " = " := by
  rw [str_append_empty, str_append_assoc x " " "= ", show (" " ++ "= " : String) = " = " by decide]

/-! ## Claim theorems: dice engine -/

/-- C1: for every notation string `<n>d<s>` (with optional modifier clause
`<sign><m>`) where `1 ≤ n ≤ 100` and `2 ≤ s ≤ 1000`, and for every outcome
of the random draws, `dice_roll` succeeds (its result is not an `[ERROR]`
string) and reports exactly `n` individual rolls, each in `[1, s]`, and a
total equal to `sum(rolls)` plus the modifier (0 when the clause is
absent). -/
theorem c1_dice_roll_valid (ds1 ds2 : List Char) (mc : Option (Bool × List Char)) (g : Nat → Nat)
    (h1 : ds1 ≠ []) (hd1 : ∀ c ∈ ds1, c.isDigit = true)
    (h2 : ds2 ≠ []) (hd2 : ∀ c ∈ ds2, c.isDigit = true)
    (hmc : ∀ sgn dm, mc = some (sgn, dm) → dm ≠ [] ∧ ∀ c ∈ dm, c.isDigit = true)
    (hn1 : 1 ≤ digitsVal ds1) (hn2 : digitsVal ds1 ≤ 100)
    (hs1 : 2 ≤ digitsVal ds2) (hs2 : digitsVal ds2 ≤ 1000)
    (hg : ∀ i, i < digitsVal ds1 → 1 ≤ g i ∧ g i ≤ digitsVal ds2) :
    dice_roll g (diceStr ds1 ds2 mc []) =
      "Rolled " ++ diceStr ds1 ds2 mc [] ++ ": " ++
        pyListRepr ((List.range (digitsVal ds1)).map g) ++ " " ++ modSeg (modVal mc) ++ "= " ++
        toString ((((List.range (digitsVal ds1)).map g).sum : Int) + modVal mc) ∧
    leadsWith ("[ERROR]".data) (dice_roll g (diceStr ds1 ds2 mc [])).data = false ∧
    ((List.range (digitsVal ds1)).map g).length = digitsVal ds1 ∧
    (∀ r ∈ (List.range (digitsVal ds1)).map g, 1 ≤ r ∧ r ≤ digitsVal ds2) := by
  have hm : diceMatch (diceStr ds1 ds2 mc []).data =
      some (digitsVal ds1, digitsVal ds2, modVal mc) :=
    diceMatch_eq ds1 ds2 mc [] h1 hd1 h2 hd2 hmc (fun c cs h => nomatch h)
  have heq := dice_roll_success (diceStr ds1 ds2 mc []) _ _ _ g hm hn1 hn2 hs1 hs2
  refine ⟨heq, ?_, rolls_length g _, rolls_bounds g _ _ hg⟩
  rw [heq]
  rfl

/-- C1 witness: the notation "3d8-2" with every draw equal to 4. -/
theorem c1_witness :
    dice_roll (fun _ => 4) "3d8-2" = "Rolled 3d8-2: [4, 4, 4] -2 = 10" := by
  have h := c1_dice_roll_valid ['3'] ['8'] (some (true, ['2'])) (fun _ => 4)
    (by decide) (by decide) (by decide) (by decide)
    (by intro sgn dm hsd; injection hsd with hp; injection hp with ha hb
        subst ha; subst hb; exact ⟨by decide, by decide⟩)
    (by decide) (by decide) (by decide) (by decide)
    (fun i _ => ⟨by show 1 ≤ 4; decide, by show 4 ≤ digitsVal ['8']; decide⟩)
  exact h.1.trans (by decide)

/-- C2 counterexample: at the concrete out-of-range notation "0d6" the
engine returns the dice-count range error, and that error message does not
echo the offending notation string. -/
theorem c2_counterexample :
    dice_roll (fun _ => 1) "0d6" = countErrMsg ∧
    occursIn "0d6".data countErrMsg.data = false := by
  exact ⟨by decide, by decide⟩

/-- C2 (amended): a malformed notation yields the invalid-notation error,
which echoes the offending string; a count or sides range violation yields
a fixed range error that does not mention the notation; the three error
messages are pairwise distinct, all are `[ERROR]`-prefixed, and every error
is the entire result (no partial roll output). -/
theorem c2_dice_roll_errors (g : Nat → Nat) (s : String) :
    (diceMatch s.data = none →
      dice_roll g s = invalidMsg s ∧ occursIn s.data (invalidMsg s).data = true) ∧
    (∀ n sd m, diceMatch s.data = some (n, sd, m) → (n < 1 ∨ n > 100) →
      dice_roll g s = countErrMsg) ∧
    (∀ n sd m, diceMatch s.data = some (n, sd, m) → 1 ≤ n → n ≤ 100 →
      (sd < 2 ∨ sd > 1000) → dice_roll g s = sidesErrMsg) ∧
    invalidMsg s ≠ countErrMsg ∧ invalidMsg s ≠ sidesErrMsg ∧ countErrMsg ≠ sidesErrMsg ∧
    leadsWith ("[ERROR]".data) (invalidMsg s).data = true ∧
    leadsWith ("[ERROR]".data) countErrMsg.data = true ∧
    leadsWith ("[ERROR]".data) sidesErrMsg.data = true := by
  refine ⟨?_, ?_, ?_, ?_, ?_, by decide, rfl, by decide, by decide⟩
  · intro hm
    refine ⟨by unfold dice_roll; rw [hm], ?_⟩
    have hd : (invalidMsg s).data =
        "[ERROR] Invalid dice notation: ".data ++
          (s.data ++ ". Use format like '2d6', '1d20+5', etc.".data) := by
      simp [invalidMsg, strData_append, List.append_assoc]
    rw [hd]
    exact occursIn_of_append _ _ _
  · intro n sd m hm hr
    unfold dice_roll
    simp only [hm]
    rw [if_pos hr]
  · intro n sd m hm hn1 hn2 hr
    unfold dice_roll
    simp only [hm]
    rw [if_neg (by omega), if_pos hr]
  · exact string_ne_of_leads _ _ ("[ERROR] I".data) rfl (by decide)
  · exact string_ne_of_leads _ _ ("[ERROR] I".data) rfl (by decide)

/-- C2 witness: the malformed case at "abc" (echoing the notation), the
count-range case at "101d6" and the sides-range case at "1d1001". -/
theorem c2_witness :
    (dice_roll (fun _ => 1) "abc" = invalidMsg "abc" ∧
      occursIn "abc".data (invalidMsg "abc").data = true) ∧
    dice_roll (fun _ => 1) "101d6" = countErrMsg ∧
    dice_roll (fun _ => 1) "1d1001" = sidesErrMsg := by
  refine ⟨(c2_dice_roll_errors (fun _ => 1) "abc").1 (by decide), ?_, ?_⟩
  · exact (c2_dice_roll_errors (fun _ => 1) "101d6").2.1 101 6 0 (by decide) (by decide)
  · exact (c2_dice_roll_errors (fun _ => 1) "1d1001").2.2.1 1 1001 0 (by decide) (by decide)
      (by decide) (by decide)

/-- C7 counterexample: at the valid notation "2d6" (draws fixed at 3) the
engine's roll operation returns the formatted string
"Rolled 2d6: [3, 3] = 6", not a structured rolls/modifier/total value:
formatting happens inside the engine, not in the caller. -/
theorem c7_counterexample :
    dice_roll (fun _ => 3) "2d6" = "Rolled 2d6: [3, 3] = 6" := by decide

/-- C7 (amended): for every valid notation the engine returns a formatted
string that embeds the rolls, the modifier segment and the total; the
formatting is performed by the engine itself rather than left to the
caller. -/
theorem c7_formats_string (s : String) (n sd : Nat) (m : Int) (g : Nat → Nat)
    (hmatch : diceMatch s.data = some (n, sd, m))
    (hn1 : 1 ≤ n) (hn2 : n ≤ 100) (hs1 : 2 ≤ sd) (hs2 : sd ≤ 1000) :
    dice_roll g s =
      "Rolled " ++ s ++ ": " ++ pyListRepr ((List.range n).map g) ++ " " ++
        modSeg m ++ "= " ++ toString ((((List.range n).map g).sum : Int) + m) :=
  dice_roll_success s n sd m g hmatch hn1 hn2 hs1 hs2

/-- C7 witness: the amended claim at "1d20+5" with draws fixed at 7. -/
theorem c7_witness :
    dice_roll (fun _ => 7) "1d20+5" = "Rolled 1d20+5: [7] +5 = 12" := by
  have h := c7_formats_string "1d20+5" 1 20 5 (fun _ => 7) (by decide) (by decide)
    (by decide) (by decide) (by decide)
  exact h.trans (by decide)

/-- C8: a notation with modifier 0, written "+0" or "-0" or omitted, parses
to the same (count, sides, modifier 0) triple, and every zero-modifier roll
renders without an explicit modifier sign. -/
theorem c8_zero_modifier (ds1 ds2 : List Char)
    (h1 : ds1 ≠ []) (hd1 : ∀ c ∈ ds1, c.isDigit = true)
    (h2 : ds2 ≠ []) (hd2 : ∀ c ∈ ds2, c.isDigit = true)
    (g : Nat → Nat) (s : String) (n sd : Nat)
    (hzero : diceMatch s.data = some (n, sd, 0))
    (hn1 : 1 ≤ n) (hn2 : n ≤ 100) (hs1 : 2 ≤ sd) (hs2 : sd ≤ 1000) :
    diceMatch (ds1 ++ 'd' :: (ds2 ++ ['+', '0'])) = diceMatch (ds1 ++ 'd' :: ds2) ∧
    diceMatch (ds1 ++ 'd' :: (ds2 ++ ['-', '0'])) = diceMatch (ds1 ++ 'd' :: ds2) ∧
    diceMatch (ds1 ++ 'd' :: ds2) = some (digitsVal ds1, digitsVal ds2, 0) ∧
    dice_roll g s =
      "Rolled " ++ s ++ ": " ++ pyListRepr ((List.range n).map g) ++ " = " ++
        toString (((List.range n).map g).sum : Int) := by
  have hbase := diceMatch_eq ds1 ds2 none [] h1 hd1 h2 hd2
    (fun sgn dm h => nomatch h) (fun c cs h => nomatch h)
  have hplus := diceMatch_eq ds1 ds2 (some (false, ['0'])) [] h1 hd1 h2 hd2
    (by intro sgn dm h; injection h with h2; injection h2 with ha hb; subst ha; subst hb
        exact ⟨by decide, by decide⟩)
    (fun c cs h => nomatch h)
  have hminus := diceMatch_eq ds1 ds2 (some (true, ['0'])) [] h1 hd1 h2 hd2
    (by intro sgn dm h; injection h with h2; injection h2 with ha hb; subst ha; subst hb
        exact ⟨by decide, by decide⟩)
    (fun c cs h => nomatch h)
  simp [modChars, modVal, show digitsVal ['0'] = 0 from rfl] at hbase hplus hminus
  refine ⟨?_, ?_, ?_, ?_⟩
  · rw [hbase, hplus]
  · rw [hbase, hminus]
  · exact hbase
  · have heq := dice_roll_success s n sd 0 g hzero hn1 hn2 hs1 hs2
    rw [heq, show modSeg 0 = "" from rfl, Int.add_zero, str_space_empty_eq]

/-- C8 witness: "2d6+0", "2d6-0" and "2d6" all parse to (2, 6, 0), and the
"2d6+0" roll renders without a modifier sign. -/
theorem c8_witness :
    diceMatch "2d6+0".data = diceMatch "2d6".data ∧
    diceMatch "2d6-0".data = diceMatch "2d6".data ∧
    diceMatch "2d6".data = some (2, 6, 0) ∧
    dice_roll (fun _ => 1) "2d6+0" = "Rolled 2d6+0: [1, 1] = 2" := by
  have h := c8_zero_modifier ['2'] ['6'] (by decide) (by decide) (by decide) (by decide)
    (fun _ => 1) "2d6+0" 2 6 (by decide) (by decide) (by decide) (by decide) (by decide)
  exact ⟨h.1, h.2.1, h.2.2.1, h.2.2.2.trans (by decide)⟩

/-- C10: an input that begins with a maximal prefix `<digits>d<digits>`
(with optional signed modifier) followed by any trailing characters that
cannot extend the regex match — the head of the trailing text is not a
digit, and when no modifier clause is present it is not a sign immediately
followed by a digit — parses exactly as the prefix alone does; the roll
succeeds using only that prefix while the full original string is echoed in
the output.  A trailing sign without a digit after it (as in "2d6+x" or
"2d6+") is ignored: the optional regex group matches empty there. -/
theorem c10_trailing (ds1 ds2 : List Char) (mc : Option (Bool × List Char)) (t : List Char)
    (g : Nat → Nat)
    (h1 : ds1 ≠ []) (hd1 : ∀ c ∈ ds1, c.isDigit = true)
    (h2 : ds2 ≠ []) (hd2 : ∀ c ∈ ds2, c.isDigit = true)
    (hmc : ∀ sgn dm, mc = some (sgn, dm) → dm ≠ [] ∧ ∀ c ∈ dm, c.isDigit = true)
    (ht : ∀ c cs, t = c :: cs → c.isDigit = false ∧
      (mc = none → (c = '+' ∨ c = '-') → ∀ d ds, cs = d :: ds → d.isDigit = false))
    (hn1 : 1 ≤ digitsVal ds1) (hn2 : digitsVal ds1 ≤ 100)
    (hs1 : 2 ≤ digitsVal ds2) (hs2 : digitsVal ds2 ≤ 1000) :
    diceMatch (diceStr ds1 ds2 mc t).data = some (digitsVal ds1, digitsVal ds2, modVal mc) ∧
    diceMatch (diceStr ds1 ds2 mc t).data = diceMatch (diceStr ds1 ds2 mc []).data ∧
    dice_roll g (diceStr ds1 ds2 mc t) =
      "Rolled " ++ diceStr ds1 ds2 mc t ++ ": " ++
        pyListRepr ((List.range (digitsVal ds1)).map g) ++ " " ++ modSeg (modVal mc) ++ "= " ++
        toString ((((List.range (digitsVal ds1)).map g).sum : Int) + modVal mc) := by
  have hmt : diceMatch (diceStr ds1 ds2 mc t).data =
      some (digitsVal ds1, digitsVal ds2, modVal mc) :=
    diceMatch_eq ds1 ds2 mc t h1 hd1 h2 hd2 hmc ht
  have hm0 : diceMatch (diceStr ds1 ds2 mc []).data =
      some (digitsVal ds1, digitsVal ds2, modVal mc) :=
    diceMatch_eq ds1 ds2 mc [] h1 hd1 h2 hd2 hmc (fun c cs h => nomatch h)
  refine ⟨hmt, hmt.trans hm0.symm, ?_⟩
  exact dice_roll_success (diceStr ds1 ds2 mc t) _ _ _ g hmt hn1 hn2 hs1 hs2

/-- C10 witness: "2d6 and more" and "2d6+x" (a trailing sign without a
digit) are both rolled as 2d6 while the full string is echoed back. -/
theorem c10_witness :
    diceMatch "2d6 and more".data = some (2, 6, 0) ∧
    dice_roll (fun _ => 1) "2d6 and more" = "Rolled 2d6 and more: [1, 1] = 2" ∧
    dice_roll (fun _ => 1) "2d6+x" = "Rolled 2d6+x: [1, 1] = 2" := by
  have h := c10_trailing ['2'] ['6'] none (' ' :: "and more".data) (fun _ => 1)
    (by decide) (by decide) (by decide) (by decide)
    (fun sgn dm h => nomatch h)
    (by intro c cs h; injection h with ha hb; subst ha
        exact ⟨by decide, fun _ hor => absurd hor (by decide)⟩)
    (by decide) (by decide) (by decide) (by decide)
  have h2 := c10_trailing ['2'] ['6'] none ['+', 'x'] (fun _ => 1)
    (by decide) (by decide) (by decide) (by decide)
    (fun sgn dm h => nomatch h)
    (by intro c cs h; injection h with ha hb; subst ha; subst hb
        refine ⟨by decide, fun _ _ d ds hd => ?_⟩
        injection hd with hd1 hd2; subst hd1; decide)
    (by decide) (by decide) (by decide) (by decide)
  exact ⟨h.1, h.2.2.trans (by decide), h2.2.2.trans (by decide)⟩

/-! ## Claim theorems: gateway -/

/-- C6: a request whose body is an object with `action = "ping"` yields a
204 response with the MCP-Version header and no body, for every registry
state and whatever else the request carries; no tool lookup is involved. -/
theorem c6_ping (st : ServerState) (g : Nat → Nat) (fields : List (String × JValue))
    (hact : lookupField "action" fields = some (JValue.str "ping")) :
    (lambda_handler st g (some (JValue.obj fields))).1 =
      ⟨204, [("MCP-Version", "0.6")], none⟩ := by
  simp [lambda_handler, hact]

/-- C6 witness: the ping request against the sample state. -/
theorem c6_witness :
    (lambda_handler sampleState (fun _ => 1)
      (some (JValue.obj [("action", JValue.str "ping")]))).1 =
      ⟨204, [("MCP-Version", "0.6")], none⟩ :=
  c6_ping sampleState (fun _ => 1) [("action", JValue.str "ping")] rfl

/-- C3: a callTool request naming a tool absent from the registry yields a
404 response whose body names that tool.  The registry holds the built-in
"diceRoll" implementation (spec invariant), so an unregistered name never
takes the diceRoll fast path. -/
theorem c3_unknown_tool (st : ServerState) (g : Nat → Nat) (fields : List (String × JValue))
    (nm : String)
    (hact : lookupField "action" fields = some (JValue.str "callTool"))
    (hname : lookupField "name" fields = some (JValue.str nm))
    (hdice : (lookupField "diceRoll" st.impls).isSome = true)
    (habs : lookupField nm st.impls = none) :
    (lambda_handler st g (some (JValue.obj fields))).1 =
      ⟨404, ctJson, some (JValue.obj [("error", JValue.str ("Tool '" ++ nm ++ "' not found"))])⟩ := by
  have hne : nm ≠ "diceRoll" := by
    intro h
    rw [h] at habs
    rw [habs] at hdice
    simp at hdice
  simp [lambda_handler, hact, callToolAction, hname, hne, callToolGeneric, habs]

/-- C3 witness: calling the unregistered tool "doesNotExist". -/
theorem c3_witness :
    (lambda_handler sampleState (fun _ => 1)
      (some (JValue.obj [("action", JValue.str "callTool"), ("name", JValue.str "doesNotExist"),
        ("arguments", JValue.obj [])]))).1 =
      ⟨404, ctJson, some (JValue.obj [("error", JValue.str "Tool 'doesNotExist' not found")])⟩ :=
  c3_unknown_tool sampleState (fun _ => 1) _ "doesNotExist" rfl rfl rfl rfl

/-- C4: whenever a callTool request actually invokes the registered
implementation of the named tool and that implementation raises, the
handler catches the exception and produces exactly the single 500 response
whose body carries "Error executing tool: " followed by the exception
message.  (When the name is "diceRoll" and a `dice_notation` argument is
present, the fast path runs instead and the registered implementation is
never invoked.) -/
theorem c4_impl_error (st : ServerState) (g : Nat → Nat) (fields : List (String × JValue))
    (nm msg : String) (f : List (String × JValue) → Except String JValue)
    (hact : lookupField "action" fields = some (JValue.str "callTool"))
    (hname : lookupField "name" fields = some (JValue.str nm))
    (hf : lookupField nm st.impls = some f)
    (hrun : f (argsOf fields) = Except.error msg)
    (hfast : nm = "diceRoll" → lookupField "dice_notation" (argsOf fields) = none) :
    (lambda_handler st g (some (JValue.obj fields))).1 =
      ⟨500, ctJson, some (JValue.obj [("error", JValue.str ("Error executing tool: " ++ msg))])⟩ := by
  by_cases hnm : nm = "diceRoll"
  · subst hnm
    simp [lambda_handler, hact, callToolAction, hname, hfast rfl, callToolGeneric, hf, hrun]
  · simp [lambda_handler, hact, callToolAction, hname, hnm, callToolGeneric, hf, hrun]

/-- C4 witness: the tool "boom", whose implementation raises "kaboom". -/
theorem c4_witness :
    (lambda_handler sampleState (fun _ => 1)
      (some (JValue.obj [("action", JValue.str "callTool"), ("name", JValue.str "boom"),
        ("arguments", JValue.obj [])]))).1 =
      ⟨500, ctJson, some (JValue.obj [("error", JValue.str "Error executing tool: kaboom")])⟩ :=
  c4_impl_error sampleState (fun _ => 1) _ "boom" "kaboom"
    (fun _ => Except.error "kaboom") rfl rfl rfl rfl
    (fun hc => absurd hc (by decide))

/-- C5: for every registry state holding an entry named "diceRoll"
(whatever placeholder schema it carries), listTools answers 200 with the
overridden listing, which contains the fixed diceRoll entry whose
inputSchema has exactly one property, the required string
`dice_notation`. -/
theorem c5_listTools_override (st : ServerState) (g : Nat → Nat)
    (fields : List (String × JValue)) (p : JValue)
    (hact : lookupField "action" fields = some (JValue.str "listTools"))
    (hp : p ∈ st.tools) (hpn : jGet "name" p = some (JValue.str "diceRoll")) :
    (lambda_handler st g (some (JValue.obj fields))).1 =
      ⟨200, [("Content-Type", "application/json"), ("MCP-Version", "0.6")],
        some (JValue.obj [("tools", JValue.arr (st.tools.map overrideDiceRoll))])⟩ ∧
    diceRollToolJson ∈ st.tools.map overrideDiceRoll ∧
    jGet "inputSchema" diceRollToolJson = some (JValue.obj [
      ("type", JValue.str "object"),
      ("properties", JValue.obj [("dice_notation", JValue.obj [
        ("type", JValue.str "string"),
        ("description", JValue.str "Standard dice notation like '2d6', '1d20+5', '3d8-2', etc.")])]),
      ("required", JValue.arr [JValue.str "dice_notation"])]) := by
  refine ⟨by simp [lambda_handler, hact], ?_, rfl⟩
  have hov : overrideDiceRoll p = diceRollToolJson := by
    simp [overrideDiceRoll, hpn]
  exact hov ▸ List.mem_map_of_mem overrideDiceRoll hp

/-- C5 witness: the sample registry holds a generic placeholder under
"diceRoll"; the listing replaces it with the fixed entry. -/
theorem c5_witness :
    (lambda_handler sampleState (fun _ => 1)
      (some (JValue.obj [("action", JValue.str "listTools")]))).1 =
      ⟨200, [("Content-Type", "application/json"), ("MCP-Version", "0.6")],
        some (JValue.obj [("tools", JValue.arr [diceRollToolJson])])⟩ := by
  have h := c5_listTools_override sampleState (fun _ => 1)
    [("action", JValue.str "listTools")] placeholderDiceJson rfl
    (List.mem_singleton.mpr rfl) rfl
  exact h.1

/-- C9: handling listTools leaves the registry state unchanged: the
diceRoll override appears only in the listing built for the caller, and
any entry the registry held before (in particular the diceRoll
placeholder) is still held afterwards. -/
theorem c9_registry_unchanged (st : ServerState) (g : Nat → Nat)
    (fields : List (String × JValue)) (p : JValue)
    (hact : lookupField "action" fields = some (JValue.str "listTools"))
    (hp : p ∈ st.tools) :
    (lambda_handler st g (some (JValue.obj fields))).2 = st ∧
    p ∈ ((lambda_handler st g (some (JValue.obj fields))).2).tools ∧
    (lambda_handler st g (some (JValue.obj fields))).1.body =
      some (JValue.obj [("tools", JValue.arr (st.tools.map overrideDiceRoll))]) := by
  have hst : (lambda_handler st g (some (JValue.obj fields))).2 = st := by
    simp [lambda_handler, hact]
  refine ⟨hst, by rw [hst]; exact hp, by simp [lambda_handler, hact]⟩

/-- C9 witness: after listTools against the sample state the registry still
holds the original placeholder, while the listing showed the override. -/
theorem c9_witness :
    (lambda_handler sampleState (fun _ => 1)
      (some (JValue.obj [("action", JValue.str "listTools")]))).2 = sampleState ∧
    placeholderDiceJson ∈
      ((lambda_handler sampleState (fun _ => 1)
        (some (JValue.obj [("action", JValue.str "listTools")]))).2).tools := by
  have h := c9_registry_unchanged sampleState (fun _ => 1)
    [("action", JValue.str "listTools")] placeholderDiceJson rfl
    (List.mem_singleton.mpr rfl)
  exact ⟨h.1, h.2.1⟩
